import Mathlib

/-!
Verification of the IgnitoSolutions Flask application (`app.py`).

The development shallowly embeds the data model (Service, User, Order,
Contact), the seeding routine, the session-based admin gate and every
route handler of the application, together with a model of the JSON
serialization used by the `/order` route, and proves the behavioural
claims about them.

Conventions of the embedding:
* the SQLite/SQLAlchemy record store becomes a `Store` structure holding
  lists of records; `db.session.commit` on a `Service` row enforces the
  `nullable=False` column constraints declared in the model classes;
* the Flask session becomes a single `Bool` (the `admin_logged_in` flag);
* form data (`request.form`) becomes an association list of strings,
  JSON bodies (`request.get_json()`) an association list of `Json` values;
* JSON numbers are modelled as integers (fractional literals are outside
  the model); `float(...)` becomes a partial conversion to that integer
  type, and a Python exception surfaces as a `serverError` response.
-/

namespace App

/-! ## JSON values

Model of the JSON values that `request.get_json()` can produce and that
`json.dumps` / `json.loads` serialize: null, booleans, (integer) numbers,
strings, arrays and objects with string keys. -/

inductive Json where
  | null : Json
  | bool (b : Bool) : Json
  | num (n : Int) : Json
  | str (s : String) : Json
  | arr (xs : List Json) : Json
  | obj (kvs : List (String × Json)) : Json

/-- Python truthiness of a JSON value: `None`, `False`, `0`, `""`, `[]`
and an empty object are falsy, everything else is truthy. -/
def Json.truthy : Json → Bool
  | .null => false
  | .bool b => b
  | .num n => !(n == 0)
  | .str s => !(s == "")
  | .arr xs => !xs.isEmpty
  | .obj kvs => !kvs.isEmpty

/-- Models Python `float(...)` applied to a JSON value, restricted to the
integer-valued numbers of the model: numbers convert to themselves,
booleans to 0/1, strings parse as integer literals; `None`, lists and
objects raise (and an unparsable string raises), giving `none`. -/
def pyFloat : Json → Option Int
  | .num n => some n
  | .bool b => some (if b then 1 else 0)
  | .str s => s.toInt?
  | .null => none
  | .arr _ => none
  | .obj _ => none

/-! ## The serializer (model of `json.dumps`)

`json.dumps` with its default separators `", "` and `": "`, escaping
the quote and backslash characters inside strings. -/

/-- Decimal digit character for a digit value (values above nine clamp
to `'9'`; the function is only applied to values below ten). -/
def digitChar : Nat → Char
  | 0 => '0'
  | 1 => '1'
  | 2 => '2'
  | 3 => '3'
  | 4 => '4'
  | 5 => '5'
  | 6 => '6'
  | 7 => '7'
  | 8 => '8'
  | _ => '9'

/-- Decimal digit characters of a natural number, most significant first. -/
def natDigits (n : Nat) : List Char :=
  if _h : n < 10 then [digitChar n]
  else natDigits (n / 10) ++ [digitChar (n % 10)]
termination_by n
decreasing_by exact Nat.div_lt_self (by omega) (by omega)

/-- Decimal character rendering of an integer, with a leading minus sign
for negative values. -/
def intChars (n : Int) : List Char :=
  if n < 0 then '-' :: natDigits (-n).toNat else natDigits n.toNat

/-- Escape of a single character inside a serialized JSON string:
backslash and quote receive a backslash, everything else is emitted
verbatim. -/
def escapeChar (c : Char) : List Char :=
  if c = '\\' then ['\\', c] else if c = '"' then ['\\', c] else [c]

/-- Escape of a character sequence inside a serialized JSON string. -/
def escape : List Char → List Char
  | [] => []
  | c :: cs => escapeChar c ++ escape cs

mutual

/-- Character stream emitted by the serializer for one JSON value. -/
def jchars : Json → List Char
  | .null => "null".data
  | .bool true => "true".data
  | .bool false => "false".data
  | .num n => intChars n
  | .str s => '"' :: (escape s.data ++ ['"'])
  | .arr xs => '[' :: (echars xs ++ [']'])
  | .obj kvs => '{' :: (mchars kvs ++ ['}'])

/-- Serialized array elements, separated by `", "`. -/
def echars : List Json → List Char
  | [] => []
  | [x] => jchars x
  | x :: y :: xs => jchars x ++ ',' :: ' ' :: echars (y :: xs)

/-- Serialized object members, `"key": value` separated by `", "`. -/
def mchars : List (String × Json) → List Char
  | [] => []
  | [(k, v)] => '"' :: (escape k.data ++ '"' :: ':' :: ' ' :: jchars v)
  | (k, v) :: m :: kvs =>
      ('"' :: (escape k.data ++ '"' :: ':' :: ' ' :: jchars v))
        ++ ',' :: ' ' :: mchars (m :: kvs)

end

/-- Model of `json.dumps`. -/
def dumps (j : Json) : String := String.mk (jchars j)

/-! ## The parser (model of `json.loads`)

A recursive-descent parser for the exact character format the serializer
emits, with a fuel argument bounding the recursion depth. -/

/-- Parses the remainder of a JSON string literal (after the opening
quote), un-escaping escaped characters, and returns the string contents
together with the unconsumed input after the closing quote. -/
def parseStrAux : List Char → Option (List Char × List Char)
  | [] => none
  | c :: rest =>
    if c = '\\' then
      match rest with
      | [] => none
      | d :: rest2 =>
        match parseStrAux rest2 with
        | some (s, r) => some (d :: s, r)
        | none => none
    else if c = '"' then some ([], rest)
    else
      match parseStrAux rest with
      | some (s, r) => some (c :: s, r)
      | none => none

/-- Splits off the longest run of decimal digit characters. -/
def parseDigits : List Char → List Char × List Char
  | [] => ([], [])
  | c :: rest =>
    if c.isDigit then
      match parseDigits rest with
      | (ds, r) => (c :: ds, r)
    else ([], c :: rest)

/-- Numeric value of a run of decimal digit characters. -/
def digitsToNat (ds : List Char) : Nat :=
  ds.foldl (fun a c => 10 * a + (c.toNat - 48)) 0

/-- Parses an integer literal, with an optional leading minus sign. -/
def parseNum (cs : List Char) : Option (Json × List Char) :=
  match cs with
  | [] => none
  | c :: rest =>
    if c = '-' then
      match parseDigits rest with
      | ([], _) => none
      | (d :: ds, r) => some (.num (-(digitsToNat (d :: ds) : Int)), r)
    else
      match parseDigits (c :: rest) with
      | ([], _) => none
      | (d :: ds, r) => some (.num ((digitsToNat (d :: ds) : Int)), r)

/-- Consumes an expected literal character sequence from the input. -/
def expectChars : List Char → List Char → Option (List Char)
  | [], input => some input
  | e :: es, input =>
    match input with
    | [] => none
    | c :: cs => if c = e then expectChars es cs else none

mutual

/-- Parses one JSON value from the head of the input. -/
def parseJson : Nat → List Char → Option (Json × List Char)
  | 0, _ => none
  | fuel + 1, cs =>
    match cs with
    | [] => none
    | c :: rest =>
      if c = 'n' then
        (expectChars ['u', 'l', 'l'] rest).map (fun r => (Json.null, r))
      else if c = 't' then
        (expectChars ['r', 'u', 'e'] rest).map (fun r => (Json.bool true, r))
      else if c = 'f' then
        (expectChars ['a', 'l', 's', 'e'] rest).map (fun r => (Json.bool false, r))
      else if c = '"' then
        (parseStrAux rest).map (fun p => (Json.str (String.mk p.1), p.2))
      else if c = '[' then
        match rest with
        | [] => none
        | d :: rest2 =>
          if d = ']' then some (.arr [], rest2)
          else (parseElems fuel (d :: rest2)).map (fun p => (Json.arr p.1, p.2))
      else if c = '{' then
        match rest with
        | [] => none
        | d :: rest2 =>
          if d = '}' then some (.obj [], rest2)
          else (parseMembers fuel (d :: rest2)).map (fun p => (Json.obj p.1, p.2))
      else parseNum (c :: rest)

/-- Parses the elements of a nonempty array body up to and including the
closing bracket. -/
def parseElems : Nat → List Char → Option (List Json × List Char)
  | 0, _ => none
  | fuel + 1, cs =>
    match parseJson fuel cs with
    | none => none
    | some (x, r) =>
      match r with
      | [] => none
      | d :: r2 =>
        if d = ']' then some ([x], r2)
        else if d = ',' then
          match r2 with
          | [] => none
          | e :: r3 =>
            if e = ' ' then
              (parseElems fuel r3).map (fun p => (x :: p.1, p.2))
            else none
        else none

/-- Parses the members of a nonempty object body up to and including the
closing brace. -/
def parseMembers : Nat → List Char → Option (List (String × Json) × List Char)
  | 0, _ => none
  | fuel + 1, cs =>
    match cs with
    | [] => none
    | q :: cs2 =>
      if q = '"' then
        match parseStrAux cs2 with
        | none => none
        | some (k, r) =>
          match expectChars [':', ' '] r with
          | none => none
          | some r2 =>
            match parseJson fuel r2 with
            | none => none
            | some (v, r3) =>
              match r3 with
              | [] => none
              | d :: r4 =>
                if d = '}' then some ([(String.mk k, v)], r4)
                else if d = ',' then
                  match r4 with
                  | [] => none
                  | e :: r5 =>
                    if e = ' ' then
                      (parseMembers fuel r5).map
                        (fun p => ((String.mk k, v) :: p.1, p.2))
                    else none
                else none
      else none

end

/-- Model of `json.loads`, restricted to the canonical format the
serializer emits: parses the whole input, rejecting trailing garbage. -/
def loads (s : String) : Option Json :=
  match parseJson (s.length + 1) s.data with
  | some (j, []) => some j
  | _ => none

/-- The head of the unconsumed input is not a decimal digit (so a number
parse cannot overrun into it). -/
def notDigitHead : List Char → Bool
  | [] => true
  | c :: _ => !c.isDigit

mutual

/-- Fuel sufficient for `parseJson` to parse a serialized value. -/
def needJ : Json → Nat
  | .arr xs => needE xs + 1
  | .obj kvs => needM kvs + 1
  | _ => 1

/-- Fuel sufficient for `parseElems` on serialized array elements. -/
def needE : List Json → Nat
  | [] => 0
  | x :: xs => needJ x + needE xs + 1

/-- Fuel sufficient for `parseMembers` on serialized object members. -/
def needM : List (String × Json) → Nat
  | [] => 0
  | kv :: kvs => needJ kv.2 + needM kvs + 1

end

/-! ## Application data model

The four SQLAlchemy models of the application. `Service` fields are
`Option String` because the edit route assigns raw `request.form.get`
results (possibly `None`) to the columns; the `nullable=False`
declarations are enforced at commit time by `serviceNotNull`. -/

structure Service where
  id : Nat
  name : Option String
  description : Option String
  price_display : Option String
  image_file : Option String

structure User where
  username : String
  password_hash : String

structure Order where
  items_json : String
  total : Int
  name : Json
  email : Json
  message : Json

structure Contact where
  name : String
  email : String
  message : String

/-- The record store (the SQLite database): one list per model plus the
autoincrement counter for Service primary keys. -/
structure Store where
  services : List Service
  users : List User
  orders : List Order
  contacts : List Contact
  nextServiceId : Nat

/-- Form data (`request.form`): an association list of string fields. -/
abbrev Form := List (String × String)

/-- A JSON object body (`request.get_json()`). -/
abbrev JsonObj := List (String × Json)

/-- `request.form.get(key)`. -/
def formGet (f : Form) (k : String) : Option String :=
  (f.find? (fun p => p.1 == k)).map (fun p => p.2)

/-- `data.get(key)` on a JSON object body. -/
def jget (d : JsonObj) (k : String) : Option Json :=
  (d.find? (fun p => p.1 == k)).map (fun p => p.2)

/-- Python truthiness of a `request.form.get` result: `None` and the
empty string are falsy. -/
def truthyS : Option String → Bool
  | none => false
  | some s => !(s == "")

/-- Python truthiness of a `data.get` result on a JSON body. -/
def truthyJ : Option Json → Bool
  | none => false
  | some j => j.truthy

/-- Models `werkzeug.security.generate_password_hash`: a salted hash
whose contract is that verification succeeds exactly on the hashed
password (`check_password_hash (generate_password_hash p) q = (p = q)`). -/
def generate_password_hash (p : String) : String :=
  "pbkdf2-sha256$" ++ p

/-- Models `werkzeug.security.check_password_hash` for hashes produced
by `generate_password_hash`. -/
def check_password_hash (h p : String) : Bool :=
  h == "pbkdf2-sha256$" ++ p

/-- `User.verify_password`. -/
def verify_password (u : User) (password : String) : Bool :=
  check_password_hash u.password_hash password

/-- HTTP responses of the handlers, as far as the claims observe them:
redirects (with the optional `next` query parameter), template renders
(with the optional error message passed to the template), JSON responses
with a status code, the 404 page from `get_or_404`, and the 500 page
produced by an uncaught Python exception. -/
inductive Response where
  | redirect (location : String) (next : Option String)
  | render (template : String) (error : Option String)
  | jsonResp (body : List (String × Json)) (code : Nat)
  | notFound
  | serverError

/-- The `nullable=False` column constraints of the `Service` model: a
commit writing NULL into one of the four columns raises an integrity
error. -/
def serviceNotNull (t : Service) : Bool :=
  t.name.isSome && t.description.isSome && t.price_display.isSome
    && t.image_file.isSome

/-! ## Seed data -/

def DEFAULT_ADMIN_USERNAME : String := "admin"

def DEFAULT_ADMIN_PASSWORD : String := "admin123"

/-- The static service catalog seeded on startup, in source order:
(name, description, price_display, image_file). -/
def services_seed : List (String × String × String × String) :=
  [ ("Market Research",
     "Gain deep insights into your market and customers to make informed decisions.",
     "Starting from $2,999", "market_research.png"),
    ("Marketing",
     "Reach your audience with effective marketing strategies and campaigns.",
     "Design Your Bundle", "lead_generation.png"),
    ("Apps and Software Development",
     "Build high‑quality applications and software tailored to your needs.",
     "Starting from $9,999", "apps_development.png"),
    ("Business Strategy",
     "Develop a clear business strategy that aligns with your goals and vision.",
     "$2,999", "business_strategy.png"),
    ("Operational Reporting",
     "Monitor and improve your operations with comprehensive reporting tools.",
     "Check Monthly / Yearly Bundles", "operational_reporting.png"),
    ("Offshore Teams",
     "Build and manage offshore call centers and social media management teams to enhance efficiency and reduce costs.",
     "Tailored pricing", "offshore_teams.png"),
    ("Lead Generation",
     "Generate high‑quality leads through targeted strategies and tools to grow your customer base.",
     "Tailored pricing", "lead_generation.png") ]

/-- Service rows for seed entries, with consecutive autoincrement ids. -/
def mkSeed (base : Nat) : List (String × String × String × String) → List Service
  | [] => []
  | (n, d, p, i) :: rest =>
    { id := base, name := some n, description := some d,
      price_display := some p, image_file := some i } :: mkSeed (base + 1) rest

/-- `seed_data`: inserts the default admin when no User row exists, and
the seven catalog services when the Service count is zero. -/
def seed_data (s : Store) : Store :=
  let s1 := if s.users.isEmpty then
      { s with users := s.users ++
          [{ username := DEFAULT_ADMIN_USERNAME,
             password_hash := generate_password_hash DEFAULT_ADMIN_PASSWORD }] }
    else s
  if s1.services.length == 0 then
    { s1 with services := mkSeed s1.nextServiceId services_seed,
              nextServiceId := s1.nextServiceId + services_seed.length }
  else s1

/-! ## Route handlers -/

/-- POST branch of `contact_page` (`/contact`): Python
`all([name, email, message])` fails on a missing or empty field; on
success a Contact row is committed and `{"status": "success"}` returned. -/
def contact_page (form : Form) (s : Store) : Store × Response :=
  let name := formGet form "name"
  let email := formGet form "email"
  let message := formGet form "message"
  if !(truthyS name && truthyS email && truthyS message) then
    (s, .jsonResp [("status", .str "error"),
                   ("message", .str "All fields are required.")] 400)
  else
    let contact : Contact :=
      { name := name.getD "", email := email.getD "", message := message.getD "" }
    ({ s with contacts := s.contacts ++ [contact] },
      .jsonResp [("status", .str "success")] 200)

/-- The `order` route (`POST /order`): reads the JSON body with defaults
(`items` defaults to `[]`, `total` to `0`, `message` to `""`), rejects
falsy items/name/email with a 400 error, converts `total` with
`float(...)` (an unconvertible value raises, surfacing as a server
error), and commits the Order with the items serialized by `json.dumps`. -/
def order (data : JsonObj) (s : Store) : Store × Response :=
  let items := (jget data "items").getD (.arr [])
  let total := (jget data "total").getD (.num 0)
  let name := jget data "name"
  let email := jget data "email"
  let message := (jget data "message").getD (.str "")
  if !items.truthy || !(truthyJ name) || !(truthyJ email) then
    (s, .jsonResp [("status", .str "error"),
                   ("message", .str "Missing required information.")] 400)
  else
    match pyFloat total with
    | none => (s, .serverError)
    | some t =>
      let o : Order :=
        { items_json := dumps items, total := t,
          name := name.getD .null, email := email.getD .null,
          message := message }
      ({ s with orders := s.orders ++ [o] },
        .jsonResp [("status", .str "success")] 200)

/-- POST branch of `login` (`/admin/login`): looks the user up by the
submitted username; `if user and user.verify_password(password)` sets
the session flag and redirects to the dashboard on a match, and falls
through to the generic re-render otherwise. A found user with no
submitted password makes `check_password_hash` raise (server error). -/
def login (form : Form) (sess : Bool) (s : Store) : Store × Bool × Response :=
  let username := formGet form "username"
  let password := formGet form "password"
  match s.users.find? (fun u => some u.username == username) with
  | none => (s, sess, .render "login.html" (some "Invalid credentials"))
  | some u =>
    match password with
    | none => (s, sess, .serverError)
    | some p =>
      if check_password_hash u.password_hash p then
        (s, true, .redirect "/admin/dashboard" none)
      else (s, sess, .render "login.html" (some "Invalid credentials"))

/-- The `logout` route (`GET /admin/logout`): pops the session flag and
redirects to the login page. The source does not wrap this route in
`admin_required`. -/
def logout (_sess : Bool) (s : Store) : Store × Bool × Response :=
  (s, false, .redirect "/admin/login" none)

/-- POST branch of `add_service` (`/admin/services/add`): `image_file`
falls back to the placeholder on a falsy value, validation requires
truthy name/description/price_display, and on success a Service row with
the next autoincrement id is committed. -/
def add_service (form : Form) (s : Store) : Store × Response :=
  let name := formGet form "name"
  let description := formGet form "description"
  let price_display := formGet form "price_display"
  let image_file :=
    if truthyS (formGet form "image_file") then (formGet form "image_file").getD ""
    else "placeholder.png"
  if !(truthyS name && truthyS description && truthyS price_display) then
    (s, .render "service_form.html" (some "All fields are required"))
  else
    let service : Service :=
      { id := s.nextServiceId, name := name, description := description,
        price_display := price_display, image_file := some image_file }
    if serviceNotNull service then
      ({ s with services := s.services ++ [service],
                nextServiceId := s.nextServiceId + 1 },
        .redirect "/admin/dashboard" none)
    else (s, .serverError)

/-- GET branch of `edit_service`: `Service.query.get_or_404`. -/
def edit_service_get (sid : Nat) (s : Store) : Store × Response :=
  match s.services.find? (fun t => t.id == sid) with
  | none => (s, .notFound)
  | some _ => (s, .render "service_form.html" none)

/-- POST branch of `edit_service` (`/admin/services/edit/<id>`):
`get_or_404`, then overwrites name/description/price_display with the
raw form values unconditionally and image_file only when the submitted
value is truthy; the commit enforces the NOT NULL column constraints. -/
def edit_service (sid : Nat) (form : Form) (s : Store) : Store × Response :=
  match s.services.find? (fun t => t.id == sid) with
  | none => (s, .notFound)
  | some svc =>
    let image_file := formGet form "image_file"
    let updated : Service :=
      { svc with
        name := formGet form "name"
        description := formGet form "description"
        price_display := formGet form "price_display"
        image_file := if truthyS image_file then image_file else svc.image_file }
    if serviceNotNull updated then
      ({ s with services :=
            s.services.map (fun t => if t.id == sid then updated else t) },
        .redirect "/admin/dashboard" none)
    else (s, .serverError)

/-- The `delete_service` route (`POST /admin/services/delete/<id>`):
`get_or_404`, then deletes the row and redirects to the dashboard. -/
def delete_service (sid : Nat) (s : Store) : Store × Response :=
  match s.services.find? (fun t => t.id == sid) with
  | none => (s, .notFound)
  | some _ =>
    ({ s with services := s.services.filter (fun t => !(t.id == sid)) },
      .redirect "/admin/dashboard" none)

/-! ## Request dispatch -/

/-- The routes of the application, with the request payload where the
handler reads one. -/
inductive Req where
  | indexGet
  | servicesGet
  | aboutGet
  | blogGet
  | privacyGet
  | termsGet
  | contactGet
  | contactPost (form : Form)
  | checkoutGet
  | orderPost (data : JsonObj)
  | loginGet
  | loginPost (form : Form)
  | logoutGet
  | dashboardGet
  | addServiceGet
  | addServicePost (form : Form)
  | editServiceGet (sid : Nat)
  | editServicePost (sid : Nat) (form : Form)
  | deleteServicePost (sid : Nat)

/-- `request.path` of each route. -/
def reqPath : Req → String
  | .indexGet => "/"
  | .servicesGet => "/services"
  | .aboutGet => "/about"
  | .blogGet => "/blog"
  | .privacyGet => "/privacy-policy"
  | .termsGet => "/terms-and-conditions"
  | .contactGet => "/contact"
  | .contactPost _ => "/contact"
  | .checkoutGet => "/checkout"
  | .orderPost _ => "/order"
  | .loginGet => "/admin/login"
  | .loginPost _ => "/admin/login"
  | .logoutGet => "/admin/logout"
  | .dashboardGet => "/admin/dashboard"
  | .addServiceGet => "/admin/services/add"
  | .addServicePost _ => "/admin/services/add"
  | .editServiceGet sid => "/admin/services/edit/" ++ toString sid
  | .editServicePost sid _ => "/admin/services/edit/" ++ toString sid
  | .deleteServicePost sid => "/admin/services/delete/" ++ toString sid

/-- The routes living under `/admin/`. -/
def isAdminRoute : Req → Bool
  | .loginGet => true
  | .loginPost _ => true
  | .logoutGet => true
  | .dashboardGet => true
  | .addServiceGet => true
  | .addServicePost _ => true
  | .editServiceGet _ => true
  | .editServicePost _ _ => true
  | .deleteServicePost _ => true
  | _ => false

/-- The `/admin/login` route (both methods). -/
def isLoginRoute : Req → Bool
  | .loginGet => true
  | .loginPost _ => true
  | _ => false

/-- The `admin_required` decorator: when the session flag is not set it
redirects to the login page, carrying the requested path in the `next`
query parameter, without running the wrapped handler. -/
def admin_required (path : String)
    (handler : Bool → Store → Store × Bool × Response)
    (sess : Bool) (s : Store) : Store × Bool × Response :=
  if !sess then (s, sess, .redirect "/admin/login" (some path))
  else handler sess s

/-- Request dispatch: each route runs its handler, with exactly the
routes decorated by `admin_required` in the source wrapped by it
(`logout` is not). -/
def dispatch (r : Req) (sess : Bool) (s : Store) : Store × Bool × Response :=
  match r with
  | .indexGet => (s, sess, .render "index.html" none)
  | .servicesGet => (s, sess, .render "services.html" none)
  | .aboutGet => (s, sess, .render "about.html" none)
  | .blogGet => (s, sess, .render "blog.html" none)
  | .privacyGet => (s, sess, .render "privacy-policy.html" none)
  | .termsGet => (s, sess, .render "terms-and-conditions.html" none)
  | .contactGet => (s, sess, .render "contact.html" none)
  | .contactPost form =>
    let p := contact_page form s
    (p.1, sess, p.2)
  | .checkoutGet => (s, sess, .render "checkout.html" none)
  | .orderPost data =>
    let p := order data s
    (p.1, sess, p.2)
  | .loginGet => (s, sess, .render "login.html" none)
  | .loginPost form => login form sess s
  | .logoutGet => logout sess s
  | .dashboardGet =>
    admin_required "/admin/dashboard"
      (fun ss st => (st, ss, .render "dashboard.html" none)) sess s
  | .addServiceGet =>
    admin_required "/admin/services/add"
      (fun ss st => (st, ss, .render "service_form.html" none)) sess s
  | .addServicePost form =>
    admin_required "/admin/services/add"
      (fun ss st => let p := add_service form st; (p.1, ss, p.2)) sess s
  | .editServiceGet sid =>
    admin_required ("/admin/services/edit/" ++ toString sid)
      (fun ss st => let p := edit_service_get sid st; (p.1, ss, p.2)) sess s
  | .editServicePost sid form =>
    admin_required ("/admin/services/edit/" ++ toString sid)
      (fun ss st => let p := edit_service sid form st; (p.1, ss, p.2)) sess s
  | .deleteServicePost sid =>
    admin_required ("/admin/services/delete/" ++ toString sid)
      (fun ss st => let p := delete_service sid st; (p.1, ss, p.2)) sess s

/-- The response is a redirect whose target is the login route. -/
def redirectsToLogin : Response → Bool
  | .redirect location _ => location == "/admin/login"
  | _ => false

/-! ## Concrete instances used in witnesses and counterexamples -/

/-- An empty store (fresh database, autoincrement at 1). -/
def store0 : Store :=
  { services := [], users := [], orders := [], contacts := [], nextServiceId := 1 }

/-- The default administrator row created by the seeder. -/
def defaultAdmin : User :=
  { username := DEFAULT_ADMIN_USERNAME,
    password_hash := generate_password_hash DEFAULT_ADMIN_PASSWORD }

/-- A store seeded with only the default admin user. -/
def seededStore : Store := { store0 with users := [defaultAdmin] }

/-- A committed service row (all columns populated). -/
def svc1 : Service :=
  { id := 1, name := some "Branding", description := some "Old description",
    price_display := some "$1,000", image_file := some "old.png" }

/-- A store holding the single service `svc1`. -/
def store1 : Store :=
  { services := [svc1], users := [], orders := [], contacts := [], nextServiceId := 2 }

/-- The Service invariant stated by the specification: name, description
and price display of every stored service are non-empty. -/
def serviceInv (s : Store) : Bool :=
  s.services.all (fun t => truthyS t.name && truthyS t.description &&
    truthyS t.price_display)

def contactFormOk : Form :=
  [("name", "Ada"), ("email", "ada@example.com"), ("message", "Hello")]

def contactFormBad : Form := [("name", "Ada"), ("email", "")]

def orderBodyOk : JsonObj :=
  [("items", .arr [.obj [("name", .str "Consulting"), ("qty", .num 2)]]),
   ("total", .num 250), ("name", .str "Ada"), ("email", .str "ada@example.com")]

def orderBodyNoTotal : JsonObj :=
  [("items", .arr [.num 1]), ("name", .str "Ada"), ("email", .str "ada@example.com")]

def orderBodyEmptyName : JsonObj :=
  [("items", .arr [.num 1]), ("name", .str ""), ("email", .str "ada@example.com")]

def orderBodyNoTotalEmptyEmail : JsonObj :=
  [("items", .arr [.num 1]), ("name", .str "Ada"), ("email", .str "")]

def orderBodyNegTotal : JsonObj :=
  [("items", .arr [.num 1]), ("total", .num (-5)), ("name", .str "A"), ("email", .str "B")]

def loginFormOk : Form := [("username", "admin"), ("password", "admin123")]

def loginFormBadPw : Form := [("username", "admin"), ("password", "wrong")]

def editFormImgOnly : Form := [("image_file", "new.png")]

def editFormEmptyName : Form :=
  [("name", ""), ("description", "d"), ("price_display", "p")]

def editFormFull : Form :=
  [("name", "New name"), ("description", "New description"),
   ("price_display", "$2,000"), ("image_file", "")]

/-! ## Lemmas: round-trip of the serializer through the parser -/

theorem digitChar_isDigit (m : Nat) : (digitChar m).isDigit = true := by
  unfold digitChar
  split <;> decide

theorem digitChar_toNat (m : Nat) (h : m < 10) : (digitChar m).toNat - 48 = m := by
  interval_cases m <;> decide

theorem natDigits_ne_nil (n : Nat) : natDigits n ≠ [] := by
  rw [natDigits]
  split
  · simp
  · simp

theorem natDigits_all (n : Nat) : (natDigits n).all Char.isDigit = true := by
  induction n using Nat.strong_induction_on with
  | _ n ih =>
    rw [natDigits]
    split
    · simp [digitChar_isDigit]
    · rw [List.all_append]
      have hlt : n / 10 < n := Nat.div_lt_self (by omega) (by omega)
      simp [ih _ hlt, digitChar_isDigit]

theorem natDigits_cons (n : Nat) :
    ∃ d ds, natDigits n = d :: ds ∧ d.isDigit = true := by
  have hne := natDigits_ne_nil n
  have hall := natDigits_all n
  cases h : natDigits n with
  | nil => exact absurd h hne
  | cons d ds =>
    rw [h] at hall
    simp only [List.all_cons, Bool.and_eq_true] at hall
    exact ⟨d, ds, rfl, hall.1⟩

theorem foldl_natDigits (n : Nat) : ∀ a : Nat,
    (natDigits n).foldl (fun a c => 10 * a + (c.toNat - 48)) a
      = a * 10 ^ (natDigits n).length + n := by
  induction n using Nat.strong_induction_on with
  | _ n ih =>
    intro a
    rw [natDigits]
    split
    · next h =>
      simp only [List.foldl_cons, List.foldl_nil, List.length_cons, List.length_nil]
      rw [digitChar_toNat n h]
      ring
    · next h =>
      have hlt : n / 10 < n := Nat.div_lt_self (by omega) (by omega)
      rw [List.foldl_append, ih _ hlt a]
      simp only [List.foldl_cons, List.foldl_nil, List.length_append,
        List.length_cons, List.length_nil]
      rw [digitChar_toNat (n % 10) (Nat.mod_lt n (by omega))]
      have h2 : ∀ k : Nat, 10 * (a * 10 ^ k + n / 10) + n % 10 = a * 10 ^ (k + 1) + n := by
        intro k
        have h1 : 10 * (n / 10) + n % 10 = n := Nat.div_add_mod n 10
        calc 10 * (a * 10 ^ k + n / 10) + n % 10
            = a * 10 ^ (k + 1) + (10 * (n / 10) + n % 10) := by ring
          _ = a * 10 ^ (k + 1) + n := by rw [h1]
      simpa using h2 (natDigits (n / 10)).length

theorem digitsToNat_natDigits (n : Nat) : digitsToNat (natDigits n) = n := by
  unfold digitsToNat
  rw [foldl_natDigits n 0]
  simp

theorem parseDigits_spec (ds : List Char) (rest : List Char)
    (hds : ds.all Char.isDigit = true) (hr : notDigitHead rest = true) :
    parseDigits (ds ++ rest) = (ds, rest) := by
  induction ds with
  | nil =>
    cases rest with
    | nil => rfl
    | cons c r =>
      simp only [notDigitHead, Bool.not_eq_true'] at hr
      simp [parseDigits, hr]
  | cons d ds ihd =>
    simp only [List.all_cons, Bool.and_eq_true] at hds
    simp [parseDigits, hds.1, ihd hds.2]

theorem isDigit_ne (c : Char) (h : c.isDigit = true) :
    c ≠ 'n' ∧ c ≠ 't' ∧ c ≠ 'f' ∧ c ≠ '"' ∧ c ≠ '[' ∧ c ≠ '{' ∧
      c ≠ '-' ∧ c ≠ ']' ∧ c ≠ '}' := by
  refine ⟨?_, ?_, ?_, ?_, ?_, ?_, ?_, ?_, ?_⟩ <;>

    (intro hc; subst hc; exact absurd h (by decide))

theorem parseNum_spec (n : Int) (rest : List Char)
    (hr : notDigitHead rest = true) :
    parseNum (intChars n ++ rest) = some (.num n, rest) := by
  unfold intChars
  split
  · next hneg =>
    obtain ⟨d, ds, hds, hd⟩ := natDigits_cons (-n).toNat
    have hall := natDigits_all (-n).toNat
    have hval := digitsToNat_natDigits (-n).toNat
    rw [hds] at hall hval
    have hpd := parseDigits_spec (d :: ds) rest hall hr
    rw [List.cons_append] at hpd
    rw [hds]
    rw [List.cons_append, List.cons_append, parseNum.eq_def]
    simp only [if_pos, hpd, hval, Option.some.injEq, Prod.mk.injEq, Json.num.injEq]
    exact ⟨by omega, trivial⟩
  · next hneg =>
    obtain ⟨d, ds, hds, hd⟩ := natDigits_cons n.toNat
    have hall := natDigits_all n.toNat
    have hval := digitsToNat_natDigits n.toNat
    rw [hds] at hall hval
    have hpd := parseDigits_spec (d :: ds) rest hall hr
    rw [List.cons_append] at hpd
    have hdm := (isDigit_ne d hd).2.2.2.2.2.2.1
    rw [hds]
    rw [List.cons_append, parseNum.eq_def]
    simp only [hdm, if_neg, if_false, ite_false, hpd, hval,
      Option.some.injEq, Prod.mk.injEq, Json.num.injEq]
    exact ⟨by omega, trivial⟩


theorem mk_data (s : String) : String.mk s.data = s := rfl

theorem notDigitHead_cons (c : Char) (l : List Char) :
    notDigitHead (c :: l) = !c.isDigit := rfl

theorem intChars_cons (n : Int) :
    ∃ c t, intChars n = c :: t ∧ (c = '-' ∨ c.isDigit = true) := by
  unfold intChars
  split
  · exact ⟨'-', natDigits (-n).toNat, rfl, Or.inl rfl⟩
  · obtain ⟨d, ds, hds, hd⟩ := natDigits_cons n.toNat
    exact ⟨d, ds, hds, Or.inr hd⟩

theorem numHead_ne (c : Char) (h : c = '-' ∨ c.isDigit = true) :
    c ≠ 'n' ∧ c ≠ 't' ∧ c ≠ 'f' ∧ c ≠ '"' ∧ c ≠ '[' ∧ c ≠ '{' := by
  rcases h with rfl | hd
  · exact ⟨by decide, by decide, by decide, by decide, by decide, by decide⟩
  · have h2 := isDigit_ne c hd
    exact ⟨h2.1, h2.2.1, h2.2.2.1, h2.2.2.2.1, h2.2.2.2.2.1, h2.2.2.2.2.2.1⟩

theorem jchars_cons (j : Json) :
    ∃ c t, jchars j = c :: t ∧
      (c = 'n' ∨ c = 't' ∨ c = 'f' ∨ c = '"' ∨ c = '[' ∨ c = '{' ∨
        c = '-' ∨ c.isDigit = true) := by
  cases j with
  | null => exact ⟨'n', "ull".data, by simp [jchars], by simp⟩
  | bool b =>
    cases b with
    | true => exact ⟨'t', "rue".data, by simp [jchars], by simp⟩
    | false => exact ⟨'f', "alse".data, by simp [jchars], by simp⟩
  | num n =>
    obtain ⟨c, t, hct, hc⟩ := intChars_cons n
    refine ⟨c, t, by simp [jchars, hct], ?_⟩
    rcases hc with rfl | hd
    · simp
    · simp [hd]
  | str s => exact ⟨'"', escape s.data ++ ['"'], by simp [jchars], by simp⟩
  | arr xs => exact ⟨'[', echars xs ++ [']'], by simp [jchars], by simp⟩
  | obj kvs => exact ⟨'{', mchars kvs ++ ['}'], by simp [jchars], by simp⟩

theorem headJ_ne_rb (c : Char)
    (h : c = 'n' ∨ c = 't' ∨ c = 'f' ∨ c = '"' ∨ c = '[' ∨ c = '{' ∨
      c = '-' ∨ c.isDigit = true) : c ≠ ']' := by
  rcases h with rfl | rfl | rfl | rfl | rfl | rfl | rfl | hd
  · decide
  · decide
  · decide
  · decide
  · decide
  · decide
  · decide
  · exact (isDigit_ne c hd).2.2.2.2.2.2.2.1

theorem echars_eq (x : Json) (xs : List Json) :
    ∃ t, echars (x :: xs) = jchars x ++ t := by
  cases xs with
  | nil => exact ⟨[], by simp [echars]⟩
  | cons y ys => exact ⟨',' :: ' ' :: echars (y :: ys), by simp [echars]⟩

theorem parseStrAux_spec (l : List Char) (rest : List Char) :
    parseStrAux (escape l ++ '"' :: rest) = some (l, rest) := by
  induction l with
  | nil =>
    rw [show escape [] ++ '"' :: rest = '"' :: rest by simp [escape], parseStrAux.eq_def]
    simp
  | cons c cs ihc =>
    by_cases hb : c = '\\'
    · subst hb
      have he : escape ('\\' :: cs) = '\\' :: '\\' :: escape cs := by
        simp [escape, escapeChar]
      rw [he, List.cons_append, List.cons_append, parseStrAux.eq_def]
      simp [ihc]
    · by_cases hq : c = '"'
      · subst hq
        have he : escape ('"' :: cs) = '\\' :: '"' :: escape cs := by
          simp [escape, escapeChar]
        rw [he, List.cons_append, List.cons_append, parseStrAux.eq_def]
        simp [ihc]
      · have he : escape (c :: cs) = c :: escape cs := by
          simp [escape, escapeChar, hb, hq]
        rw [he, List.cons_append, parseStrAux.eq_def]
        simp [hb, hq, ihc]

theorem one_le_needJ (j : Json) : 1 ≤ needJ j := by
  cases j <;> simp [needJ]

theorem parse_round (fuel : Nat) :
    (∀ j rest, needJ j ≤ fuel → notDigitHead rest = true →
        parseJson fuel (jchars j ++ rest) = some (j, rest))
  ∧ (∀ x xs rest, needE (x :: xs) ≤ fuel →
        parseElems fuel (echars (x :: xs) ++ ']' :: rest) = some (x :: xs, rest))
  ∧ (∀ k v kvs rest, needM ((k, v) :: kvs) ≤ fuel →
        parseMembers fuel (mchars ((k, v) :: kvs) ++ '}' :: rest)
          = some ((k, v) :: kvs, rest)) := by
  induction fuel with
  | zero =>
    refine ⟨?_, ?_, ?_⟩
    · intro j rest hn _
      exact absurd hn (by have := one_le_needJ j; omega)
    · intro x xs rest hn
      exact absurd hn (by simp only [needE]; omega)
    · intro k v kvs rest hn
      exact absurd hn (by simp only [needM]; omega)
  | succ f ih =>
    obtain ⟨ih1, ih2, ih3⟩ := ih
    refine ⟨?_, ?_, ?_⟩
    · intro j rest hn hr
      cases j with
      | null =>
        rw [show jchars .null ++ rest = 'n' :: 'u' :: 'l' :: 'l' :: rest by
          simp only [jchars]; rfl]
        rw [parseJson.eq_def]
        simp [expectChars]
      | bool b =>
        cases b with
        | true =>
          rw [show jchars (.bool true) ++ rest = 't' :: 'r' :: 'u' :: 'e' :: rest by
            simp only [jchars]; rfl]
          rw [parseJson.eq_def]
          simp [expectChars]
        | false =>
          rw [show jchars (.bool false) ++ rest
              = 'f' :: 'a' :: 'l' :: 's' :: 'e' :: rest by simp only [jchars]; rfl]
          rw [parseJson.eq_def]
          simp [expectChars]
      | num n =>
        obtain ⟨c, t, hct, hc⟩ := intChars_cons n
        have hne := numHead_ne c hc
        have hpn := parseNum_spec n rest hr
        rw [show jchars (.num n) ++ rest = c :: (t ++ rest) by
          simp [jchars, hct]]
        rw [parseJson.eq_def]
        simp only [hne.1, hne.2.1, hne.2.2.1, hne.2.2.2.1, hne.2.2.2.2.1,
          hne.2.2.2.2.2, if_false, ite_false, if_neg]
        rw [show c :: (t ++ rest) = intChars n ++ rest by simp [hct]]
        exact hpn
      | str s =>
        rw [show jchars (.str s) ++ rest
            = '"' :: (escape s.data ++ '"' :: rest) by simp [jchars]]
        rw [parseJson.eq_def]
        simp [parseStrAux_spec, mk_data]
      | arr xs =>
        cases xs with
        | nil =>
          rw [show jchars (.arr []) ++ rest = '[' :: ']' :: rest by
            simp [jchars, echars]]
          rw [parseJson.eq_def]
          simp
        | cons x xs2 =>
          obtain ⟨t, ht⟩ := echars_eq x xs2
          obtain ⟨c, u, hcu, hclass⟩ := jchars_cons x
          have hcne : c ≠ ']' := headJ_ne_rb c hclass
          have hfe : needE (x :: xs2) ≤ f := by
            simp [needJ] at hn
            omega
          have hel := ih2 x xs2 rest hfe
          rw [show jchars (.arr (x :: xs2)) ++ rest
              = '[' :: (c :: (u ++ t) ++ ']' :: rest) by
            simp [jchars, ht, hcu]]
          rw [parseJson.eq_def]
          simp only [List.cons_append, List.append_assoc]
          simp only [show ('[' : Char) ≠ 'n' by decide,
            show ('[' : Char) ≠ 't' by decide, show ('[' : Char) ≠ 'f' by decide,
            show ('[' : Char) ≠ '"' by decide, if_false, ite_false, if_neg,
            if_pos, hcne]
          rw [show c :: (u ++ (t ++ ']' :: rest))
              = echars (x :: xs2) ++ ']' :: rest by
            simp [ht, hcu]]
          rw [hel]
          simp
      | obj kvs =>
        cases kvs with
        | nil =>
          rw [show jchars (.obj []) ++ rest = '{' :: '}' :: rest by
            simp [jchars, mchars]]
          rw [parseJson.eq_def]
          simp
        | cons kv kvs2 =>
          obtain ⟨k, v⟩ := kv
          have hfm : needM ((k, v) :: kvs2) ≤ f := by
            simp [needJ] at hn
            omega
          have hml := ih3 k v kvs2 rest hfm
          have hmc : ∃ t, mchars ((k, v) :: kvs2) = '"' :: t := by
            cases kvs2 with
            | nil =>
              exact ⟨escape k.data ++ '"' :: ':' :: ' ' :: jchars v, by simp [mchars]⟩
            | cons m ms =>
              exact ⟨(escape k.data ++ '"' :: ':' :: ' ' :: jchars v)
                ++ ',' :: ' ' :: mchars (m :: ms), by simp [mchars]⟩
          obtain ⟨t, ht⟩ := hmc
          rw [show jchars (.obj ((k, v) :: kvs2)) ++ rest
              = '{' :: ('"' :: t ++ '}' :: rest) by simp [jchars, ht]]
          rw [parseJson.eq_def]
          simp only [List.cons_append, List.append_assoc]
          simp only [show ('{' : Char) ≠ 'n' by decide,
            show ('{' : Char) ≠ 't' by decide, show ('{' : Char) ≠ 'f' by decide,
            show ('{' : Char) ≠ '"' by decide, show ('{' : Char) ≠ '[' by decide,
            show ('"' : Char) ≠ '}' by decide, if_false, ite_false, if_neg, if_pos]
          rw [show ('"' : Char) :: (t ++ '}' :: rest)
              = mchars ((k, v) :: kvs2) ++ '}' :: rest by simp [ht]]
          rw [hml]
          simp
    · intro x xs rest hn
      have hfx : needJ x ≤ f := by
        simp [needE] at hn
        omega
      cases xs with
      | nil =>
        have h1 := ih1 x (']' :: rest) hfx (by rw [notDigitHead_cons]; decide)
        rw [show echars [x] ++ ']' :: rest = jchars x ++ ']' :: rest by
          simp [echars]]
        rw [parseElems.eq_def]
        simp [h1]
      | cons y ys =>
        have hfe : needE (y :: ys) ≤ f := by
          simp [needE] at hn ⊢
          omega
        have h1 := ih1 x (',' :: ' ' :: (echars (y :: ys) ++ ']' :: rest)) hfx
          (by rw [notDigitHead_cons]; decide)
        have h2 := ih2 y ys rest hfe
        rw [show echars (x :: y :: ys) ++ ']' :: rest
            = jchars x ++ ',' :: ' ' :: (echars (y :: ys) ++ ']' :: rest) by
          simp [echars]]
        rw [parseElems.eq_def]
        simp [h1, h2]
    · intro k v kvs rest hn
      have hfv : needJ v ≤ f := by
        simp [needM] at hn
        omega
      cases kvs with
      | nil =>
        have h1 := ih1 v ('}' :: rest) hfv (by rw [notDigitHead_cons]; decide)
        rw [show mchars [(k, v)] ++ '}' :: rest
            = '"' :: (escape k.data ++ '"' :: (':' :: ' ' :: (jchars v ++ '}' :: rest))) by
          simp [mchars]]
        rw [parseMembers.eq_def]
        simp [parseStrAux_spec, h1, mk_data, expectChars]
      | cons m ms =>
        have hfm : needM (m :: ms) ≤ f := by
          simp [needM] at hn ⊢
          omega
        have h1 := ih1 v (',' :: ' ' :: (mchars (m :: ms) ++ '}' :: rest)) hfv
          (by rw [notDigitHead_cons]; decide)
        have h2 := ih3 m.1 m.2 ms rest (by simpa using hfm)
        rw [show mchars ((k, v) :: m :: ms) ++ '}' :: rest
            = '"' :: (escape k.data ++ '"' ::
              (':' :: ' ' :: (jchars v ++ ',' :: ' ' :: (mchars (m :: ms) ++ '}' :: rest)))) by
          simp [mchars]]
        rw [parseMembers.eq_def]
        simp [parseStrAux_spec, h1, h2, mk_data, expectChars]

theorem need_le_length : ∀ n : Nat,
    (∀ j : Json, sizeOf j ≤ n → needJ j ≤ (jchars j).length)
  ∧ (∀ xs : List Json, sizeOf xs ≤ n → needE xs ≤ (echars xs).length + 1)
  ∧ (∀ kvs : List (String × Json), sizeOf kvs ≤ n →
      needM kvs ≤ (mchars kvs).length + 1) := by
  intro n
  induction n using Nat.strong_induction_on with
  | _ n ih =>
    refine ⟨?_, ?_, ?_⟩
    · intro j hs
      cases j with
      | null =>
        simp only [needJ, jchars]
        decide
      | bool b =>
        cases b <;> simp only [needJ, jchars] <;> decide
      | num m =>
        obtain ⟨c, t, hct, _⟩ := intChars_cons m
        simp [needJ, jchars, hct]
      | str s => simp [needJ, jchars]
      | arr xs =>
        have hlt : sizeOf xs < n := by
          have hx := Json.arr.sizeOf_spec xs
          omega
        have h2 := (ih (sizeOf xs) hlt).2.1 xs le_rfl
        simp [needJ, jchars]
        omega
      | obj kvs =>
        have hlt : sizeOf kvs < n := by
          have hx := Json.obj.sizeOf_spec kvs
          omega
        have h3 := (ih (sizeOf kvs) hlt).2.2 kvs le_rfl
        simp [needJ, jchars]
        omega
    · intro xs hs
      cases xs with
      | nil => simp [needE, echars]
      | cons x xs2 =>
        have hsx : sizeOf x < n := by
          have hx := List.cons.sizeOf_spec x xs2
          omega
        have h1 := (ih (sizeOf x) hsx).1 x le_rfl
        cases xs2 with
        | nil =>
          simp [needE, echars]
          omega
        | cons y ys =>
          have hsy : sizeOf (y :: ys) < n := by
            have hx := List.cons.sizeOf_spec x (y :: ys)
            omega
          have h2 := (ih _ hsy).2.1 (y :: ys) le_rfl
          simp [needE, echars] at h2 ⊢
          omega
    · intro kvs hs
      cases kvs with
      | nil => simp [needM, mchars]
      | cons kv kvs2 =>
        obtain ⟨k, v⟩ := kv
        have hsv : sizeOf v < n := by
          have hx := List.cons.sizeOf_spec (k, v) kvs2
          have hy := Prod.mk.sizeOf_spec k v
          omega
        have h1 := (ih (sizeOf v) hsv).1 v le_rfl
        cases kvs2 with
        | nil =>
          simp [needM, mchars]
          omega
        | cons m2 ms =>
          have hsm : sizeOf (m2 :: ms) < n := by
            have hx := List.cons.sizeOf_spec (k, v) (m2 :: ms)
            omega
          have h2 := (ih _ hsm).2.2 (m2 :: ms) le_rfl
          obtain ⟨mk2, mv2⟩ := m2
          simp [needM, mchars] at h2 ⊢
          omega

/-- The serializer and the parser are mutually inverse: deserializing a
serialized JSON value yields the value back. -/
theorem loads_dumps (j : Json) : loads (dumps j) = some j := by
  have h1 := (need_le_length (sizeOf j)).1 j le_rfl
  have h2 := (parse_round ((jchars j).length + 1)).1 j [] (by omega) rfl
  rw [List.append_nil] at h2
  unfold loads dumps
  rw [show (String.mk (jchars j)).length = (jchars j).length from rfl,
    show (String.mk (jchars j)).data = jchars j from rfl, h2]

/-! ## Claims -/

/-- Claim C1: every request to an `/admin/*` route other than
`/admin/login`, made without the admin session flag, leaves the store
and the session unchanged and responds with a redirect to the login
route. This includes `GET /admin/logout`, whose handler runs unguarded
in the source but observably clears nothing (the flag is already absent)
and redirects to login. -/
theorem claim1_admin_gating (r : Req) (s : Store)
    (hadmin : isAdminRoute r = true) (hlogin : isLoginRoute r = false) :
    (dispatch r false s).1 = s ∧ (dispatch r false s).2.1 = false ∧
      redirectsToLogin (dispatch r false s).2.2 = true := by
  cases r <;>
    simp_all [dispatch, admin_required, logout, redirectsToLogin,
      isAdminRoute, isLoginRoute]

/-- Witness for C1 at the logout route on a concrete store. -/
theorem claim1_witness :
    isAdminRoute Req.logoutGet = true ∧ isLoginRoute Req.logoutGet = false ∧
      ((dispatch Req.logoutGet false store1).1 = store1 ∧
        (dispatch Req.logoutGet false store1).2.1 = false ∧
        redirectsToLogin (dispatch Req.logoutGet false store1).2.2 = true) :=
  ⟨rfl, rfl, claim1_admin_gating Req.logoutGet store1 rfl rfl⟩

/-- Claim C2: POST `/contact` with non-empty name, email and message
appends exactly one Contact built from the submitted fields and returns
the JSON success response; with any of the three missing or empty it
persists nothing and returns the 400 error response. -/
theorem claim2_contact (form : Form) (s : Store) :
    (truthyS (formGet form "name") = true →
      truthyS (formGet form "email") = true →
      truthyS (formGet form "message") = true →
      contact_page form s =
        ({ s with contacts := s.contacts ++
            [{ name := (formGet form "name").getD "",
               email := (formGet form "email").getD "",
               message := (formGet form "message").getD "" }] },
          .jsonResp [("status", .str "success")] 200))
  ∧ ((truthyS (formGet form "name") && truthyS (formGet form "email") &&
        truthyS (formGet form "message")) = false →
      contact_page form s =
        (s, .jsonResp [("status", .str "error"),
              ("message", .str "All fields are required.")] 400)) := by
  constructor
  · intro h1 h2 h3
    simp [contact_page, h1, h2, h3]
  · intro h
    simp [contact_page, h]

/-- Witness for C2: one valid and one invalid concrete submission. -/
theorem claim2_witness :
    (truthyS (formGet contactFormOk "name") = true ∧
      truthyS (formGet contactFormOk "email") = true ∧
      truthyS (formGet contactFormOk "message") = true ∧
      contact_page contactFormOk store0 =
        ({ store0 with contacts := store0.contacts ++
            [{ name := (formGet contactFormOk "name").getD "",
               email := (formGet contactFormOk "email").getD "",
               message := (formGet contactFormOk "message").getD "" }] },
          .jsonResp [("status", .str "success")] 200))
  ∧ ((truthyS (formGet contactFormBad "name") &&
        truthyS (formGet contactFormBad "email") &&
        truthyS (formGet contactFormBad "message")) = false ∧
      contact_page contactFormBad store0 =
        (store0, .jsonResp [("status", .str "error"),
          ("message", .str "All fields are required.")] 400)) :=
  ⟨⟨rfl, rfl, rfl,
      (claim2_contact contactFormOk store0).1 rfl rfl rfl⟩,
    ⟨rfl, (claim2_contact contactFormBad store0).2 rfl⟩⟩

/-- Claim C9: with an admin session, GET and POST on
`/admin/services/edit/{id}` and POST on `/admin/services/delete/{id}`
for a nonexistent service id answer 404 and leave the store (and
session) unchanged. -/
theorem claim9_missing_id (sid : Nat) (form : Form) (s : Store)
    (h : s.services.find? (fun t => t.id == sid) = none) :
    dispatch (.editServiceGet sid) true s = (s, true, .notFound)
  ∧ dispatch (.editServicePost sid form) true s = (s, true, .notFound)
  ∧ dispatch (.deleteServicePost sid) true s = (s, true, .notFound) := by
  refine ⟨?_, ?_, ?_⟩ <;>
    simp [dispatch, admin_required, edit_service_get, edit_service,
      delete_service, h]

/-- Witness for C9 at id 42 on a store that only holds id 1. -/
theorem claim9_witness :
    store1.services.find? (fun t => t.id == 42) = none ∧
      (dispatch (.editServiceGet 42) true store1 = (store1, true, .notFound)
      ∧ dispatch (.editServicePost 42 []) true store1 = (store1, true, .notFound)
      ∧ dispatch (.deleteServicePost 42) true store1 = (store1, true, .notFound)) :=
  ⟨rfl, claim9_missing_id 42 [] store1 rfl⟩

/-- Counterexample to C10 as stated: a body with a non-empty items
list, present name and email keys (email is the empty string) and no
`total` or `message` key creates no Order and returns the 400 error,
while the claim promises an Order with total 0 — the handler tests
truthiness, not key presence. -/
theorem claim10_counterexample :
    jget orderBodyNoTotalEmptyEmail "total" = none
  ∧ jget orderBodyNoTotalEmptyEmail "message" = none
  ∧ jget orderBodyNoTotalEmptyEmail "items" = some (Json.arr [Json.num 1])
  ∧ jget orderBodyNoTotalEmptyEmail "name" = some (Json.str "Ada")
  ∧ jget orderBodyNoTotalEmptyEmail "email" = some (Json.str "")
  ∧ order orderBodyNoTotalEmptyEmail store0 =
      (store0, .jsonResp [("status", Json.str "error"),
        ("message", Json.str "Missing required information.")] 400) :=
  ⟨rfl, rfl, rfl, rfl, rfl, rfl⟩

/-- Claim C10 (amended): POST `/order` with truthy (non-empty, not
merely present) items, name and email but no `total` key stores the
order with total 0, and a missing `message` key is stored as the empty
string rather than rejected. -/
theorem claim10_defaults (data : JsonObj) (s : Store)
    (ht : jget data "total" = none) (hm : jget data "message" = none)
    (hi : ((jget data "items").getD (.arr [])).truthy = true)
    (hn : truthyJ (jget data "name") = true)
    (he : truthyJ (jget data "email") = true) :
    order data s =
      ({ s with orders := s.orders ++
          [{ items_json := dumps ((jget data "items").getD (.arr [])),
             total := 0,
             name := (jget data "name").getD .null,
             email := (jget data "email").getD .null,
             message := .str "" }] },
        .jsonResp [("status", .str "success")] 200) := by
  simp [order, ht, hm, hi, hn, he, pyFloat]

/-- Witness for C10 on a concrete body without total and message keys. -/
theorem claim10_witness :
    (jget orderBodyNoTotal "total" = none ∧
      jget orderBodyNoTotal "message" = none ∧
      ((jget orderBodyNoTotal "items").getD (.arr [])).truthy = true ∧
      truthyJ (jget orderBodyNoTotal "name") = true ∧
      truthyJ (jget orderBodyNoTotal "email") = true) ∧
    order orderBodyNoTotal store0 =
      ({ store0 with orders := store0.orders ++
          [{ items_json := dumps ((jget orderBodyNoTotal "items").getD (.arr [])),
             total := 0,
             name := (jget orderBodyNoTotal "name").getD .null,
             email := (jget orderBodyNoTotal "email").getD .null,
             message := .str "" }] },
        .jsonResp [("status", .str "success")] 200) :=
  ⟨⟨rfl, rfl, rfl, rfl, rfl⟩,
    claim10_defaults orderBodyNoTotal store0 rfl rfl rfl rfl rfl⟩

theorem mkSeed_length (l : List (String × String × String × String)) :
    ∀ base, (mkSeed base l).length = l.length := by
  induction l with
  | nil => intro base; rfl
  | cons q rest ihq =>
    obtain ⟨n, d, p, i⟩ := q
    intro base
    simp [mkSeed, ihq]

theorem seed_data_users_ne (s : Store) : (seed_data s).users.isEmpty = false := by
  by_cases hu : s.users.isEmpty <;>
    simp_all [seed_data, apply_ite Store.users]

theorem seed_data_services_len (s : Store) :
    ((seed_data s).services.length == 0) = false := by
  have hseed : services_seed ≠ [] := by simp [services_seed]
  by_cases hs : (s.services.length == 0) = true <;>
    by_cases hu : s.users.isEmpty <;>
      simp_all [seed_data, mkSeed_length, apply_ite Store.services]

theorem seed_data_stable (s : Store) (hu : s.users.isEmpty = false)
    (hs : (s.services.length == 0) = false) : seed_data s = s := by
  simp [seed_data, hu, hs]

/-- Claim C4: seeding is idempotent, inserts the admin only when no User
row exists, and inserts the seven catalog services only when the Service
count is zero. -/
theorem claim4_seed_idempotent (s : Store) :
    seed_data (seed_data s) = seed_data s
  ∧ (s.users ≠ [] → (seed_data s).users = s.users)
  ∧ (s.users = [] → (seed_data s).users = [defaultAdmin])
  ∧ (s.services ≠ [] → (seed_data s).services = s.services)
  ∧ (s.services = [] →
      (seed_data s).services = mkSeed s.nextServiceId services_seed
      ∧ (mkSeed s.nextServiceId services_seed).length = 7) := by
  refine ⟨seed_data_stable (seed_data s) (seed_data_users_ne s)
    (seed_data_services_len s), ?_, ?_, ?_, ?_⟩
  · intro h
    have hu : s.users.isEmpty = false := by simp [h]
    simp [seed_data, hu, apply_ite Store.users]
  · intro h
    have hu : s.users.isEmpty = true := by simp [h]
    simp [seed_data, hu, h, apply_ite Store.users, defaultAdmin]
  · intro h
    have hs2 : (s.services.length == 0) = false := by simp [h]
    by_cases hu : s.users.isEmpty <;>
      simp [seed_data, hu, hs2, apply_ite Store.services]
  · intro h
    have hs2 : (s.services.length == 0) = true := by simp [h]
    constructor
    · by_cases hu : s.users.isEmpty <;>
        simp [seed_data, hu, hs2, apply_ite Store.services]
    · rw [mkSeed_length]
      rfl

/-- Witness for C4 on the empty store. -/
theorem claim4_witness :
    seed_data (seed_data store0) = seed_data store0
  ∧ store0.users = [] ∧ (seed_data store0).users = [defaultAdmin]
  ∧ store0.services = []
  ∧ (seed_data store0).services = mkSeed store0.nextServiceId services_seed :=
  ⟨(claim4_seed_idempotent store0).1, rfl,
    (claim4_seed_idempotent store0).2.2.1 rfl, rfl,
    ((claim4_seed_idempotent store0).2.2.2.2 rfl).1⟩

/-- Claim C5: POST `/admin/login` with the seeded default admin
credentials sets the session flag and redirects to the dashboard; an
unknown username or a wrong password leaves the session flag unchanged
(in particular unset) and re-renders the login form with the same
generic error response in both failure cases. -/
theorem claim5_login (form : Form) (sess : Bool) (s : Store) :
    (s.users = [defaultAdmin] →
      formGet form "username" = some DEFAULT_ADMIN_USERNAME →
      formGet form "password" = some DEFAULT_ADMIN_PASSWORD →
      login form sess s = (s, true, .redirect "/admin/dashboard" none))
  ∧ (s.users.find? (fun u => some u.username == formGet form "username") = none →
      login form sess s =
        (s, sess, .render "login.html" (some "Invalid credentials")))
  ∧ (∀ u p,
      s.users.find? (fun u => some u.username == formGet form "username") = some u →
      formGet form "password" = some p →
      check_password_hash u.password_hash p = false →
      login form sess s =
        (s, sess, .render "login.html" (some "Invalid credentials"))) := by
  refine ⟨?_, ?_, ?_⟩
  · intro hu hn hp
    simp [login, hu, hn, hp, defaultAdmin, check_password_hash,
      generate_password_hash, DEFAULT_ADMIN_USERNAME, DEFAULT_ADMIN_PASSWORD]
  · intro h
    simp [login, h]
  · intro u p hf hp hc
    simp [login, hf, hp, hc]

/-- Witness for C5: the seeded admin logging in with the default
credentials, with a wrong password, and with an unknown user. -/
theorem claim5_witness :
    (seededStore.users = [defaultAdmin] ∧
      formGet loginFormOk "username" = some DEFAULT_ADMIN_USERNAME ∧
      formGet loginFormOk "password" = some DEFAULT_ADMIN_PASSWORD ∧
      login loginFormOk false seededStore =
        (seededStore, true, .redirect "/admin/dashboard" none))
  ∧ (check_password_hash defaultAdmin.password_hash "wrong" = false ∧
      login loginFormBadPw false seededStore =
        (seededStore, false, .render "login.html" (some "Invalid credentials")))
  ∧ login loginFormOk false store0 =
      (store0, false, .render "login.html" (some "Invalid credentials")) :=
  ⟨⟨rfl, rfl, rfl,
      (claim5_login loginFormOk false seededStore).1 rfl rfl rfl⟩,
    ⟨by decide,
      (claim5_login loginFormBadPw false seededStore).2.2 defaultAdmin "wrong"
        rfl rfl (by decide)⟩,
    (claim5_login loginFormOk false store0).2.1 rfl⟩

/-- Counterexample to C3 as stated: a POST whose items list is non-empty
and whose name and email keys are both present (name is the empty
string) creates no Order and returns the 400 error, while the claim
promises a created Order and a success response. -/
theorem claim3_counterexample :
    jget orderBodyEmptyName "name" = some (Json.str "")
  ∧ jget orderBodyEmptyName "email" = some (Json.str "ada@example.com")
  ∧ jget orderBodyEmptyName "items" = some (Json.arr [Json.num 1])
  ∧ order orderBodyEmptyName store0 =
      (store0, .jsonResp [("status", Json.str "error"),
        ("message", Json.str "Missing required information.")] 400) :=
  ⟨rfl, rfl, rfl, rfl⟩

/-- Claim C3 (amended): when items, name and email are all truthy
(non-empty, not merely present) and `float(total)` converts, exactly one
Order is appended whose total is the converted number and whose
serialized items deserialize back to an equal list, and the success
response is returned; when `float(total)` raises, no Order is created
(server error); when items, name or email is falsy, no Order is created
and the 400 error is returned. -/
theorem claim3_order (data : JsonObj) (s : Store) :
    (∀ t, ((jget data "items").getD (.arr [])).truthy = true →
      truthyJ (jget data "name") = true →
      truthyJ (jget data "email") = true →
      pyFloat ((jget data "total").getD (.num 0)) = some t →
      order data s =
        ({ s with orders := s.orders ++
            [{ items_json := dumps ((jget data "items").getD (.arr [])),
               total := t,
               name := (jget data "name").getD .null,
               email := (jget data "email").getD .null,
               message := (jget data "message").getD (.str "") }] },
          .jsonResp [("status", .str "success")] 200)
      ∧ loads (dumps ((jget data "items").getD (.arr []))) =
          some ((jget data "items").getD (.arr [])))
  ∧ (((jget data "items").getD (.arr [])).truthy = true →
      truthyJ (jget data "name") = true →
      truthyJ (jget data "email") = true →
      pyFloat ((jget data "total").getD (.num 0)) = none →
      order data s = (s, .serverError))
  ∧ ((((jget data "items").getD (.arr [])).truthy && truthyJ (jget data "name")
        && truthyJ (jget data "email")) = false →
      order data s = (s, .jsonResp [("status", .str "error"),
        ("message", .str "Missing required information.")] 400)) := by
  refine ⟨?_, ?_, ?_⟩
  · intro t hi hn he hf
    exact ⟨by simp [order, hi, hn, he, hf], loads_dumps _⟩
  · intro hi hn he hf
    simp [order, hi, hn, he, hf]
  · intro h
    have hcond : (!((jget data "items").getD (.arr [])).truthy
        || !truthyJ (jget data "name") || !truthyJ (jget data "email")) = true := by
      cases hA : ((jget data "items").getD (.arr [])).truthy <;>
        cases hB : truthyJ (jget data "name") <;>
          cases hC : truthyJ (jget data "email") <;> simp_all
    simp [order, hcond]

/-- Witness for C3 (amended) on a concrete valid order body. -/
theorem claim3_witness :
    (((jget orderBodyOk "items").getD (.arr [])).truthy = true
      ∧ truthyJ (jget orderBodyOk "name") = true
      ∧ truthyJ (jget orderBodyOk "email") = true
      ∧ pyFloat ((jget orderBodyOk "total").getD (.num 0)) = some 250)
  ∧ (order orderBodyOk store0 =
      ({ store0 with orders := store0.orders ++
          [{ items_json := dumps ((jget orderBodyOk "items").getD (.arr [])),
             total := 250,
             name := (jget orderBodyOk "name").getD .null,
             email := (jget orderBodyOk "email").getD .null,
             message := (jget orderBodyOk "message").getD (.str "") }] },
        .jsonResp [("status", .str "success")] 200)
    ∧ loads (dumps ((jget orderBodyOk "items").getD (.arr []))) =
        some ((jget orderBodyOk "items").getD (.arr []))) :=
  ⟨⟨rfl, rfl, rfl, rfl⟩,
    (claim3_order orderBodyOk store0).1 250 rfl rfl rfl rfl⟩

/-- Counterexample to C8 as stated: a POST with total `-5` creates an
Order whose stored total is `-5`, which is negative. -/
theorem claim8_counterexample :
    (order orderBodyNegTotal store0).1.orders.map Order.total = [-5]
  ∧ (order orderBodyNegTotal store0).2 =
      .jsonResp [("status", Json.str "success")] 200
  ∧ ((-5 : Int) < 0) :=
  ⟨rfl, rfl, by decide⟩

/-- Claim C8 (amended): every Order persisted by POST `/order` stores
total equal to `float(...)` of the submitted total (default 0); the
stored total is non-negative exactly when that converted value is — the
route performs no sign check, so a negative submitted total is stored
negative. -/
theorem claim8_total (data : JsonObj) (s : Store) (t : Int)
    (hi : ((jget data "items").getD (.arr [])).truthy = true)
    (hn : truthyJ (jget data "name") = true)
    (he : truthyJ (jget data "email") = true)
    (hf : pyFloat ((jget data "total").getD (.num 0)) = some t) :
    (order data s).1.orders.map Order.total = s.orders.map Order.total ++ [t]
  ∧ (order data s).2 = .jsonResp [("status", .str "success")] 200 := by
  constructor <;> simp [order, hi, hn, he, hf]

/-- Witness for C8 (amended) on a concrete order body with total 250. -/
theorem claim8_witness :
    (((jget orderBodyOk "items").getD (.arr [])).truthy = true
      ∧ truthyJ (jget orderBodyOk "name") = true
      ∧ truthyJ (jget orderBodyOk "email") = true
      ∧ pyFloat ((jget orderBodyOk "total").getD (.num 0)) = some 250)
  ∧ ((order orderBodyOk store0).1.orders.map Order.total =
        store0.orders.map Order.total ++ [250]
    ∧ (order orderBodyOk store0).2 =
        .jsonResp [("status", .str "success")] 200) :=
  ⟨⟨rfl, rfl, rfl, rfl⟩,
    claim8_total orderBodyOk store0 250 rfl rfl rfl rfl⟩

theorem truthyS_isSome (o : Option String) (h : truthyS o = true) :
    o.isSome = true := by
  cases o <;> simp_all [truthyS]

/-- Counterexample to C6 as stated: a POST on an existing service whose
form submits only a non-empty `image_file` (no name, description or
price_display) fails at commit with the NOT NULL constraint, so the
stored image_file is not replaced and nothing is overwritten, while the
claim promises the image is replaced and the other fields overwritten. -/
theorem claim6_counterexample :
    truthyS (formGet editFormImgOnly "image_file") = true
  ∧ formGet editFormImgOnly "name" = none
  ∧ edit_service 1 editFormImgOnly store1 = (store1, .serverError) :=
  ⟨rfl, rfl, rfl⟩

/-- Claim C6 (amended): for a POST on an existing, fully populated
service whose form supplies name, description and price_display: an
empty or absent submitted image_file leaves the stored image_file
unchanged while a non-empty one replaces it, and name, description and
price_display are overwritten in both cases. A POST missing one of the
three text fields instead fails the NOT NULL commit and changes
nothing. -/
theorem claim6_edit (sid : Nat) (form : Form) (s : Store) (svc : Service)
    (hfind : s.services.find? (fun t => t.id == sid) = some svc)
    (himg0 : svc.image_file.isSome = true)
    (hn : (formGet form "name").isSome = true)
    (hd : (formGet form "description").isSome = true)
    (hp : (formGet form "price_display").isSome = true) :
    (truthyS (formGet form "image_file") = false →
      edit_service sid form s =
        ({ s with services := s.services.map (fun t => if t.id == sid then
            { svc with
                name := formGet form "name",
                description := formGet form "description",
                price_display := formGet form "price_display",
                image_file := svc.image_file } else t) },
          .redirect "/admin/dashboard" none))
  ∧ (truthyS (formGet form "image_file") = true →
      edit_service sid form s =
        ({ s with services := s.services.map (fun t => if t.id == sid then
            { svc with
                name := formGet form "name",
                description := formGet form "description",
                price_display := formGet form "price_display",
                image_file := formGet form "image_file" } else t) },
          .redirect "/admin/dashboard" none)) := by
  constructor
  · intro himg
    simp [edit_service, hfind, himg, serviceNotNull, hn, hd, hp, himg0]
  · intro himg
    have himgS := truthyS_isSome _ himg
    simp [edit_service, hfind, himg, serviceNotNull, hn, hd, hp, himgS]

/-- Witness for C6 (amended) on a concrete store and full edit form
with an empty image_file. -/
theorem claim6_witness :
    (store1.services.find? (fun t => t.id == 1) = some svc1
      ∧ svc1.image_file.isSome = true
      ∧ (formGet editFormFull "name").isSome = true
      ∧ (formGet editFormFull "description").isSome = true
      ∧ (formGet editFormFull "price_display").isSome = true
      ∧ truthyS (formGet editFormFull "image_file") = false)
  ∧ edit_service 1 editFormFull store1 =
      ({ store1 with services := store1.services.map (fun t => if t.id == 1 then
          { svc1 with
              name := formGet editFormFull "name",
              description := formGet editFormFull "description",
              price_display := formGet editFormFull "price_display",
              image_file := svc1.image_file } else t) },
        .redirect "/admin/dashboard" none) :=
  ⟨⟨rfl, rfl, rfl, rfl, rfl, rfl⟩,
    (claim6_edit 1 editFormFull store1 svc1 rfl rfl rfl rfl rfl).1 rfl⟩

/-- Counterexample to C7 as stated: with an admin session, editing an
existing service with an empty name (and non-empty description and
price) commits successfully and persists a Service whose name is the
empty string, breaking the invariant. -/
theorem claim7_counterexample :
    serviceInv store1 = true
  ∧ edit_service 1 editFormEmptyName store1 =
      ({ store1 with services := [{ svc1 with
          name := some "",
          description := some "d",
          price_display := some "p" }] },
        .redirect "/admin/dashboard" none)
  ∧ serviceInv (edit_service 1 editFormEmptyName store1).1 = false :=
  ⟨rfl, rfl, rfl⟩

theorem contact_page_services (form : Form) (s : Store) :
    (contact_page form s).1.services = s.services := by
  simp only [contact_page]
  split <;> rfl

theorem order_services (data : JsonObj) (s : Store) :
    (order data s).1.services = s.services := by
  simp only [order]
  split
  · rfl
  · split <;> rfl

theorem mkSeed_all_inv :
    ∀ (l : List (String × String × String × String)) (base : Nat),
    l.all (fun q => !(q.1 == "") && !(q.2.1 == "") && !(q.2.2.1 == "")) = true →
    (mkSeed base l).all (fun t => truthyS t.name && truthyS t.description
      && truthyS t.price_display) = true := by
  intro l
  induction l with
  | nil => intro base _; rfl
  | cons q rest ihq =>
    obtain ⟨n, d, p, i⟩ := q
    intro base hall
    simp only [List.all_cons, Bool.and_eq_true] at hall
    obtain ⟨⟨⟨h1, h2⟩, h3⟩, hrest⟩ := hall
    simp only [mkSeed, List.all_cons, Bool.and_eq_true, truthyS]
    exact ⟨⟨⟨h1, h2⟩, h3⟩, ihq (base + 1) hrest⟩

/-- Claim C7 (amended): seeding, POST `/admin/services/add` (whose
validation rejects empty fields and persists nothing on failure),
deletion, and the contact and order routes all preserve the invariant
that every stored Service has non-empty name, description and
price_display; POST `/admin/services/edit/{id}` preserves it only when
the submitted name, description and price_display are non-empty — an
empty submitted string is persisted as-is (see the counterexample). -/
theorem claim7_invariant (s : Store) :
    (serviceInv s = true → serviceInv (seed_data s) = true)
  ∧ (∀ form, serviceInv s = true → serviceInv (add_service form s).1 = true)
  ∧ (∀ sid form, serviceInv s = true →
      truthyS (formGet form "name") = true →
      truthyS (formGet form "description") = true →
      truthyS (formGet form "price_display") = true →
      serviceInv (edit_service sid form s).1 = true)
  ∧ (∀ sid, serviceInv s = true → serviceInv (delete_service sid s).1 = true)
  ∧ (∀ form, serviceInv s = true → serviceInv (contact_page form s).1 = true)
  ∧ (∀ data, serviceInv s = true → serviceInv (order data s).1 = true) := by
  refine ⟨?_, ?_, ?_, ?_, ?_, ?_⟩
  · intro hinv
    have hseed : services_seed.all
        (fun q => !(q.1 == "") && !(q.2.1 == "") && !(q.2.2.1 == "")) = true := by
      decide
    by_cases hs : (s.services.length == 0) = true <;>
      by_cases hu : s.users.isEmpty <;>
        simp_all [seed_data, serviceInv, apply_ite Store.services,
          mkSeed_all_inv services_seed _ hseed]
  · intro form hinv
    by_cases hc : (truthyS (formGet form "name")
        && truthyS (formGet form "description")
        && truthyS (formGet form "price_display")) = true
    · simp only [Bool.and_eq_true] at hc
      have hns := truthyS_isSome _ hc.1.1
      have hds := truthyS_isSome _ hc.1.2
      have hps := truthyS_isSome _ hc.2
      simp [add_service, hc.1.1, hc.1.2, hc.2, serviceNotNull, hns, hds, hps,
        serviceInv, List.all_append] at hinv ⊢
      exact hinv
    · have hc2 : (truthyS (formGet form "name")
          && truthyS (formGet form "description")
          && truthyS (formGet form "price_display")) = false := by
        simp_all
      simp [add_service, hc2]
      exact hinv
  · intro sid form hinv hn hd hp
    have hns := truthyS_isSome _ hn
    have hds := truthyS_isSome _ hd
    have hps := truthyS_isSome _ hp
    cases hfind : s.services.find? (fun t => t.id == sid) with
    | none =>
      simp [edit_service, hfind]
      exact hinv
    | some svc =>
      have hinv2 : ∀ x ∈ s.services, (truthyS x.name && truthyS x.description
          && truthyS x.price_display) = true := by
        simpa [serviceInv, List.all_eq_true] using hinv
      by_cases himg : truthyS (formGet form "image_file") = true
      · have himgS := truthyS_isSome _ himg
        simp [edit_service, hfind, himg, serviceNotNull, hns, hds, hps, himgS,
          serviceInv]
        intro x hx
        by_cases hid : x.id = sid
        · simp [hid, hn, hd, hp]
        · simp only [hid, if_false, ite_false]
          simpa using hinv2 x hx
      · have himg2 : truthyS (formGet form "image_file") = false := by
          simp_all
        by_cases himg0 : svc.image_file.isSome = true
        · simp [edit_service, hfind, himg2, serviceNotNull, hns, hds, hps,
            himg0, serviceInv]
          intro x hx
          by_cases hid : x.id = sid
          · simp [hid, hn, hd, hp]
          · simp only [hid, if_false, ite_false]
            simpa using hinv2 x hx
        · have himg0f : svc.image_file.isSome = false := by simp_all
          simp [edit_service, hfind, himg2, serviceNotNull, hns, hds, hps,
            himg0f]
          exact hinv
  · intro sid hinv
    cases hfind : s.services.find? (fun t => t.id == sid) with
    | none =>
      simp [delete_service, hfind]
      exact hinv
    | some svc =>
      simp only [delete_service, hfind, serviceInv, List.all_eq_true] at hinv ⊢
      intro t2 ht2
      exact hinv t2 (List.mem_of_mem_filter ht2)
  · intro form hinv
    have hsvc := contact_page_services form s
    simp only [serviceInv, hsvc]
    exact hinv
  · intro data hinv
    have hsvc := order_services data s
    simp only [serviceInv, hsvc]
    exact hinv

/-- Witness for C7 (amended) on a concrete store, form and body. -/
theorem claim7_witness :
    serviceInv store1 = true
  ∧ serviceInv (seed_data store1) = true
  ∧ serviceInv (add_service editFormFull store1).1 = true
  ∧ serviceInv (edit_service 1 editFormFull store1).1 = true
  ∧ serviceInv (delete_service 1 store1).1 = true
  ∧ serviceInv (contact_page contactFormOk store1).1 = true
  ∧ serviceInv (order orderBodyOk store1).1 = true :=
  ⟨rfl,
    (claim7_invariant store1).1 rfl,
    (claim7_invariant store1).2.1 editFormFull rfl,
    (claim7_invariant store1).2.2.1 1 editFormFull rfl rfl rfl rfl,
    (claim7_invariant store1).2.2.2.1 1 rfl,
    (claim7_invariant store1).2.2.2.2.1 contactFormOk rfl,
    (claim7_invariant store1).2.2.2.2.2 orderBodyOk rfl⟩

end App
